import Mathlib

/-!
Verification of `src/cli/tools/registry/unfurl.rs` (the specifier unfurler of
the publish pipeline).

Embedding conventions:
* Source text is a `List Char`; all positions are byte offsets and every
  character the code inspects is ASCII, so character indices and byte offsets
  coincide.
* URLs are represented by their scheme and the serialized remainder; the
  collaborator operations of the `url` crate (`make_relative`, parsing with a
  base) and the repository's resolvers outside `src/`
  (`MappedSpecifierResolver`, `SloppyImportsResolver`,
  `is_builtin_node_module`) are supplied as function-valued fields of the
  configuration, following the interfaces in section 6 of the specification.
* A Rust panic (an `.unwrap()` on `None`) is modelled by `PResult.panic`;
  normal returns by `PResult.ok`.
-/

namespace Unfurl

/-- Result of running code that may hit a Rust `unwrap` on `None`:
`panic` models the process aborting, `ok` a normal return. -/
inductive PResult (α : Type) where
  | panic : PResult α
  | ok : α → PResult α
deriving DecidableEq

/-- A URL, kept as its scheme plus the serialized remainder after `scheme:`. -/
structure Url where
  scheme : String
  rest : String
deriving DecidableEq

/-- `Url::to_string` of the url crate: the serialized form. -/
def Url.toString (u : Url) : String := u.scheme ++ ":" ++ u.rest

/-- The double-quote character. -/
def dquote : Char := Char.ofNat 34

/-- The single-quote character. -/
def squote : Char := Char.ofNat 39

/-- A half-open byte range `[start, stop)` into the module text. -/
structure Range where
  start : Nat
  stop : Nat
deriving DecidableEq

/-- `deno_ast::TextChange`: replace the bytes in `[start, stop)` by `newText`. -/
structure TextChange where
  start : Nat
  stop : Nat
  newText : String
deriving DecidableEq

/-- `SpecifierUnfurlerDiagnostic::UnanalyzableDynamicImport` (lines 65-72);
the `text_info` field, being the whole module text shared by every diagnostic
of a run, is omitted. -/
structure Diagnostic where
  specifier : Url
  rangeStart : Nat
  rangeStop : Nat
deriving DecidableEq

/-- `deno_graph::DynamicTemplatePart`. -/
inductive DynamicTemplatePart where
  | str : String → DynamicTemplatePart
  | expr : DynamicTemplatePart
deriving DecidableEq

/-- `deno_graph::DynamicArgument`. -/
inductive DynamicArgument where
  | string : String → DynamicArgument
  | template : List DynamicTemplatePart → DynamicArgument
  | expr : DynamicArgument
deriving DecidableEq

/-- `deno_graph::DynamicDependencyDescriptor`, restricted to the fields the
unfurler reads. `argumentRange` is the byte range of the dynamic argument. -/
structure DynamicDependencyDescriptor where
  argument : DynamicArgument
  argumentRange : Range
deriving DecidableEq

/-- `deno_graph::StaticDependencyDescriptor`, restricted to the fields the
unfurler reads. -/
structure StaticDependencyDescriptor where
  specifier : String
  specifierRange : Range
deriving DecidableEq

/-- `deno_graph::DependencyDescriptor`. -/
inductive DependencyDescriptor where
  | static : StaticDependencyDescriptor → DependencyDescriptor
  | dynamic : DynamicDependencyDescriptor → DependencyDescriptor
deriving DecidableEq

/-- A specifier together with its byte range (`deno_graph::SpecifierWithRange`). -/
structure SpecifierWithRange where
  text : String
  range : Range
deriving DecidableEq

/-- `deno_graph::TypeScriptReference`. -/
inductive TypeScriptReference where
  | path : SpecifierWithRange → TypeScriptReference
  | types : SpecifierWithRange → TypeScriptReference
deriving DecidableEq

/-- The part of `deno_graph::ModuleInfo` the unfurler reads, as produced by
the external `DefaultModuleAnalyzer::module_info` collaborator, lists in
source order. -/
structure ModuleInfo where
  dependencies : List DependencyDescriptor
  tsReferences : List TypeScriptReference
  jsdocImports : List SpecifierWithRange
  jsxImportSource : Option SpecifierWithRange
deriving DecidableEq

/-- `deno_graph::source::ResolutionMode`. -/
inductive ResolutionMode where
  | execution : ResolutionMode
  | types : ResolutionMode
deriving DecidableEq

/-- `SpecifierUnfurler` (lines 90-94) together with its collaborators:
`mappedResolver` models `MappedSpecifierResolver::resolve` followed by
`MappedResolution::into_specifier` (a fallible lookup yielding an optional
reference), `sloppyImportsResolver` the optional `SloppyImportsResolver`,
`isBuiltinNodeModule` the fixed builtin table of `deno_runtime`,
`parseWithBase` the url crate parse with a base URL, and `makeRelative` the
url crate `Url::make_relative` (with receiver first). -/
structure SpecifierUnfurler where
  mappedResolver : String → Url → Except Unit (Option Url)
  sloppyImportsResolver : Option (Url → ResolutionMode → Url)
  bareNodeBuiltins : Bool
  isBuiltinNodeModule : String → Bool
  parseWithBase : String → Url → Option Url
  makeRelative : Url → Url → Option String

/-- Embedding of `relative_url` (lines 327-336). When
`referrer.make_relative(resolved)` returns `None` the source's `.unwrap()`
panics, modelled by `PResult.panic`. -/
def relativeUrl (u : SpecifierUnfurler) (resolved referrer : Url) : PResult String :=
  if resolved.scheme = "file" then
    match u.makeRelative referrer resolved with
    | some rel => .ok ("./" ++ rel)
    | none => .panic
  else
    .ok resolved.toString

/-- The resolution portion of `SpecifierUnfurler::unfurl_specifier`
(lines 114-159): mapped resolver (an error taken as no result), the bare
node-builtin namespacing, direct parse against the referrer (a parse failure
ends the whole resolution), then the sloppy-imports resolver in execution
mode when configured. -/
def resolveChain (u : SpecifierUnfurler) (referrer : Url) (specifier : String) :
    Option Url :=
  let mapped : Option Url :=
    match u.mappedResolver specifier referrer with
    | .ok r => r
    | .error _ => none
  let resolved : Option Url :=
    match mapped with
    | some r => some r
    | none =>
        if u.bareNodeBuiltins && u.isBuiltinNodeModule specifier then
          some { scheme := "node", rest := specifier }
        else
          u.parseWithBase specifier referrer
  match resolved with
  | none => none
  | some r =>
      match u.sloppyImportsResolver with
      | some sloppy => some (sloppy r .execution)
      | none => some r

/-- Embedding of `SpecifierUnfurler::unfurl_specifier` (lines 109-166):
resolve, relativize, and return the new literal unless it equals the
original specifier. -/
def unfurlSpecifier (u : SpecifierUnfurler) (referrer : Url) (specifier : String) :
    PResult (Option String) :=
  match resolveChain u referrer specifier with
  | none => .ok none
  | some resolved =>
      match relativeUrl u resolved referrer with
      | .panic => .panic
      | .ok relativeResolved =>
          if relativeResolved = specifier then .ok none
          else .ok (some relativeResolved)

/-- The text slice `text[r.start..r.stop]`. -/
def sliceOf (text : List Char) (r : Range) : List Char :=
  (text.drop r.start).take (r.stop - r.start)

/-- Embedding of `to_range` (lines 338-353): trim a leading and a trailing
quote character from the byte range. -/
def toRange (text : List Char) (range : Range) : Range :=
  let slice := sliceOf text range
  let start :=
    if slice.head? = some dquote ∨ slice.head? = some squote then range.start + 1
    else range.start
  let stop :=
    if slice.getLast? = some dquote ∨ slice.getLast? = some squote then range.stop - 1
    else range.stop
  { start := start, stop := stop }

/-- Rust `str::starts_with`, computed on the character list of the string
(so that it evaluates by kernel reduction). -/
def strStartsWith (s pre : String) : Bool := pre.data.isPrefixOf s.data

/-- Rust `str::ends_with`, computed on the character list of the string. -/
def strEndsWith (s suf : String) : Bool := suf.data.isSuffixOf s.data

/-- `str::find` of the Rust standard library: the byte index of the first
occurrence of `needle` in `hay`, `none` when absent. -/
def listFind (hay needle : List Char) : Option Nat :=
  (List.range (hay.length + 1)).find? (fun i => needle.isPrefixOf (hay.drop i))

/-- Embedding of `SpecifierUnfurler::try_unfurl_dynamic_dep` (lines 170-235):
the analyzability flag together with the text changes the call pushes. -/
def tryUnfurlDynamicDep (u : SpecifierUnfurler) (moduleUrl : Url)
    (text : List Char) (dep : DynamicDependencyDescriptor) :
    PResult (Bool × List TextChange) :=
  match dep.argument with
  | .string specifier =>
      let range := toRange text dep.argumentRange
      match listFind (sliceOf text range) specifier.data with
      | none => .ok (true, [])
      | some relativeIndex =>
          match unfurlSpecifier u moduleUrl specifier with
          | .panic => .panic
          | .ok none => .ok (true, [])
          | .ok (some unfurled) =>
              let start := range.start + relativeIndex
              .ok (true,
                [{ start := start, stop := start + specifier.length,
                   newText := unfurled }])
  | .template parts =>
      match parts.head? with
      | some (.str specifier) =>
          if strStartsWith specifier "./" || strStartsWith specifier "../" then
            .ok (true, [])
          else if !strEndsWith specifier "/" then
            .ok (false, [])
          else
            match unfurlSpecifier u moduleUrl specifier with
            | .panic => .panic
            | .ok none => .ok (true, [])
            | .ok (some unfurled) =>
                let range := toRange text dep.argumentRange
                match listFind (text.drop range.start) specifier.data with
                | none => .ok (false, [])
                | some relativeIndex =>
                    let start := range.start + relativeIndex
                    .ok (true,
                      [{ start := start, stop := start + specifier.length,
                         newText := unfurled }])
      | some .expr => .ok (false, [])
      | none => .ok (true, [])
  | .expr => .ok (false, [])

/-- The `analyze_specifier` closure of `unfurl` (lines 245-255). -/
def analyzeSpecifier (u : SpecifierUnfurler) (url : Url) (text : List Char)
    (specifier : String) (range : Range) : PResult (List TextChange) :=
  match unfurlSpecifier u url specifier with
  | .panic => .panic
  | .ok none => .ok []
  | .ok (some unfurled) =>
      let r := toRange text range
      .ok [{ start := r.start, stop := r.stop, newText := unfurled }]

/-- The dependency loop of `unfurl` (lines 256-292): the text changes and the
diagnostics pushed to the reporter, in order. The diagnostic range is the
untrimmed byte range of the dynamic argument (lines 274-281 recompute exactly
those byte offsets from the line/character positions). -/
def unfurlDeps (u : SpecifierUnfurler) (url : Url) (text : List Char) :
    List DependencyDescriptor → PResult (List TextChange × List Diagnostic)
  | [] => .ok ([], [])
  | .static dep :: rest =>
      match analyzeSpecifier u url text dep.specifier dep.specifierRange with
      | .panic => .panic
      | .ok cs =>
          match unfurlDeps u url text rest with
          | .panic => .panic
          | .ok (cs2, ds2) => .ok (cs ++ cs2, ds2)
  | .dynamic dep :: rest =>
      match tryUnfurlDynamicDep u url text dep with
      | .panic => .panic
      | .ok (success, cs) =>
          let ds : List Diagnostic :=
            if success then []
            else
              [{ specifier := url, rangeStart := dep.argumentRange.start,
                 rangeStop := dep.argumentRange.stop }]
          match unfurlDeps u url text rest with
          | .panic => .panic
          | .ok (cs2, ds2) => .ok (cs ++ cs2, ds ++ ds2)

/-- The specifier carried by a `TypeScriptReference` (lines 294-297 match
both variants to the inner specifier-with-range). -/
def tsRefSpecifier : TypeScriptReference → SpecifierWithRange
  | .path r => r
  | .types r => r

/-- The loop of `unfurl` over a list of specifiers-with-ranges (used for the
type references, the jsdoc imports). -/
def analyzeSpecifierList (u : SpecifierUnfurler) (url : Url) (text : List Char) :
    List SpecifierWithRange → PResult (List TextChange)
  | [] => .ok []
  | s :: rest =>
      match analyzeSpecifier u url text s.text s.range with
      | .panic => .panic
      | .ok cs =>
          match analyzeSpecifierList u url text rest with
          | .panic => .panic
          | .ok cs2 => .ok (cs ++ cs2)

/-- The optional JSX import source step of `unfurl` (lines 311-317). -/
def unfurlJsx (u : SpecifierUnfurler) (url : Url) (text : List Char) :
    Option SpecifierWithRange → PResult (List TextChange)
  | none => .ok []
  | some s => analyzeSpecifier u url text s.text s.range

/-- The edit-collection part of `SpecifierUnfurler::unfurl` (lines 243-317):
the full `text_changes` vector at the moment `apply_text_changes` is invoked,
together with the diagnostics reported, in order. -/
def unfurlChanges (u : SpecifierUnfurler) (url : Url) (text : List Char)
    (mi : ModuleInfo) : PResult (List TextChange × List Diagnostic) :=
  match unfurlDeps u url text mi.dependencies with
  | .panic => .panic
  | .ok (cs1, ds) =>
      match analyzeSpecifierList u url text (mi.tsReferences.map tsRefSpecifier) with
      | .panic => .panic
      | .ok cs2 =>
          match analyzeSpecifierList u url text mi.jsdocImports with
          | .panic => .panic
          | .ok cs3 =>
              match unfurlJsx u url text mi.jsxImportSource with
              | .panic => .panic
              | .ok cs4 => .ok (cs1 ++ cs2 ++ cs3 ++ cs4, ds)

/-- Modelled from the spec: the external text patcher
`deno_ast::apply_text_changes` (section 4.6) — copy verbatim up to each
edit's start, substitute its new text, continue after its end, then copy the
remainder. -/
def applyChangesFrom (text : List Char) : Nat → List TextChange → List Char
  | pos, [] => text.drop pos
  | pos, c :: rest =>
      (text.drop pos).take (c.start - pos) ++ c.newText.data
        ++ applyChangesFrom text c.stop rest

/-- Modelled from the spec: `deno_ast::apply_text_changes` (section 4.6). -/
def applyTextChanges (text : List Char) (changes : List TextChange) : List Char :=
  applyChangesFrom text 0 changes

/-- Embedding of `SpecifierUnfurler::unfurl` (lines 237-324): the rewritten
text together with the diagnostics delivered to the reporter, in order. -/
def unfurl (u : SpecifierUnfurler) (url : Url) (text : List Char)
    (mi : ModuleInfo) : PResult (List Char × List Diagnostic) :=
  match unfurlChanges u url text mi with
  | .panic => .panic
  | .ok (cs, ds) => .ok (applyTextChanges text cs, ds)

/-- The diagnostic `unfurl` pushes for one dependency descriptor: one
unanalyzable-dynamic-import diagnostic exactly when the dynamic classifier
reports failure. -/
def dynDiag (u : SpecifierUnfurler) (url : Url) (text : List Char) :
    DependencyDescriptor → Option Diagnostic
  | .static _ => none
  | .dynamic dep =>
      match tryUnfurlDynamicDep u url text dep with
      | .ok (false, _) =>
          some { specifier := url, rangeStart := dep.argumentRange.start,
                 rangeStop := dep.argumentRange.stop }
      | _ => none

/-- Whether a list of text changes is sorted by byte-start offset. -/
def sortedByStart : List TextChange → Bool
  | [] => true
  | [_] => true
  | a :: b :: rest => decide (a.start ≤ b.start) && sortedByStart (b :: rest)

/-- `Some c` for a quote character `c`, everything else is not a quote. -/
def isQuoteChar : Option Char → Bool
  | some c => c = dquote || c = squote
  | none => false

/-- Section 4.1 of the specification as it words the resolution chain, for
comparison with `resolveChain`: (1) the mapped resolver's concrete result if
any; (2) else the `node:`-prefixed specifier when the flag is enabled and the
name is a recognized builtin; (3) else the direct parse against the referrer,
failure ending the resolution; (4) the secondary resolver in execution mode
when configured. -/
def specResolutionChain (u : SpecifierUnfurler) (specifier : String)
    (referrer : Url) : Option Url :=
  let chain : Option Url :=
    match u.mappedResolver specifier referrer with
    | .ok (some r) => some r
    | _ =>
        if u.bareNodeBuiltins && u.isBuiltinNodeModule specifier then
          some { scheme := "node", rest := specifier }
        else
          u.parseWithBase specifier referrer
  match chain with
  | none => none
  | some r =>
      match u.sloppyImportsResolver with
      | some sloppy => some (sloppy r .execution)
      | none => some r

/-- Section 4.2 of the specification as the claim words it, for comparison
with `relativeUrl`: prepend `./` only when the computed relative path does
not already start with `./` or `../`. -/
def relativeUrlClaim (u : SpecifierUnfurler) (resolved referrer : Url) :
    PResult String :=
  if resolved.scheme = "file" then
    match u.makeRelative referrer resolved with
    | some rel =>
        if strStartsWith rel "./" || strStartsWith rel "../" then .ok rel
        else .ok ("./" ++ rel)
    | none => .panic
  else
    .ok resolved.toString

/-- Section 4.5 of the specification as the claim words it, for comparison
with `toRange`: the end is retracted only when the last byte is a quote
character matching the first byte. -/
def toRangeClaim (text : List Char) (range : Range) : Range :=
  let slice := sliceOf text range
  let start :=
    if isQuoteChar slice.head? then range.start + 1 else range.start
  let stop :=
    match slice.head? with
    | some c =>
        if (c = dquote || c = squote) && slice.getLast? = some c then
          range.stop - 1
        else range.stop
    | none => range.stop
  { start := start, stop := stop }

/-- The backtick character (template literal delimiter). -/
def btick : Char := Char.ofNat 96

/-- A configuration whose collaborators all answer negatively: the mapped
resolver finds nothing, no sloppy resolver, the builtin flag off, parsing
fails, `make_relative` fails. -/
def baseConfig : SpecifierUnfurler where
  mappedResolver := fun _ _ => .ok none
  sloppyImportsResolver := none
  bareNodeBuiltins := false
  isBuiltinNodeModule := fun _ => false
  parseWithBase := fun _ _ => none
  makeRelative := fun _ _ => none

/-- A referrer inside the package being published. -/
def pkgReferrer : Url := { scheme := "file", rest := "///pkg/mod.ts" }

/-- Configuration whose import map sends `a` to a file URL on another host
(`file://server/a.ts`); `Url::make_relative` between file URLs with distinct
hosts returns `None` in the url crate, modelled by the all-`none`
`makeRelative` of `baseConfig`. -/
def c1Config : SpecifierUnfurler :=
  { baseConfig with
    mappedResolver := fun s _ =>
      if s = "a" then .ok (some { scheme := "file", rest := "//server/a.ts" })
      else .ok none }

/-- The module text `import "a";`. -/
def c1Text : List Char := "import ".data ++ [dquote] ++ "a".data ++ [dquote] ++ ";".data

/-- Module info for `import "a";`: one static dependency whose quoted
specifier range is bytes 7..10. -/
def c1Module : ModuleInfo where
  dependencies := [.static { specifier := "a", specifierRange := ⟨7, 10⟩ }]
  tsReferences := []
  jsdocImports := []
  jsxImportSource := none

/-- Like `c1Config` but with the mapped reference in the same directory, so
every `make_relative` call succeeds. -/
def c1TotalConfig : SpecifierUnfurler :=
  { baseConfig with
    mappedResolver := fun s _ =>
      if s = "a" then .ok (some { scheme := "file", rest := "///pkg/a.ts" })
      else .ok none
    makeRelative := fun _ _ => some "a.ts" }

/-- Configuration whose `make_relative` computes `../b.ts` (the url crate
answer for referrer `file:///a/mod.ts` and target `file:///b.ts`). -/
def c2Config : SpecifierUnfurler :=
  { baseConfig with makeRelative := fun _ _ => some "../b.ts" }

/-- The resolved reference `file:///b.ts`. -/
def c2Resolved : Url := { scheme := "file", rest := "///b.ts" }

/-- The referrer `file:///a/mod.ts`. -/
def c2Referrer : Url := { scheme := "file", rest := "///a/mod.ts" }

/-- Configuration whose `make_relative` computes the sibling path `x.ts`. -/
def c2WConfig : SpecifierUnfurler :=
  { baseConfig with makeRelative := fun _ _ => some "x.ts" }

/-- Configuration with the import-map entry `lib/` -> `./lib/`, as in the
repository's own test. -/
def c3Config : SpecifierUnfurler :=
  { baseConfig with
    mappedResolver := fun s _ =>
      if s = "lib/" then .ok (some { scheme := "file", rest := "///pkg/lib/" })
      else .ok none
    makeRelative := fun _ _ => some "lib/" }

/-- The module text `await import(` followed by the template `lib/$\x7be\x7d`
in backticks and `)`. -/
def c3Text : List Char :=
  "await import(".data ++ [btick] ++ "lib/$".data ++ "{e}".data ++ [btick] ++ ")".data

/-- The dynamic dependency for the template `lib/$\x7be\x7d`, argument range
bytes 13..23 (backtick to past the closing backtick). -/
def c3Dep : DynamicDependencyDescriptor where
  argument := .template [.str "lib/", .expr]
  argumentRange := ⟨13, 23⟩

/-- Module info with a single plain-expression dynamic import (always
unanalyzable), argument range bytes 13..23. -/
def c5Module : ModuleInfo where
  dependencies := [.dynamic { argument := .expr, argumentRange := ⟨13, 23⟩ }]
  tsReferences := []
  jsdocImports := []
  jsxImportSource := none

/-- Configuration with the import-map entry `x` -> `npm:x@1`. -/
def c6Config : SpecifierUnfurler :=
  { baseConfig with
    mappedResolver := fun s _ =>
      if s = "x" then .ok (some { scheme := "npm", rest := "x@1" })
      else .ok none }

/-- The module text `/* @jsxImportSource x */ import "x";`: the JSX pragma
specifier `x` sits at byte 20, before the import's specifier at bytes
32..35. -/
def c6Text : List Char :=
  "/* @jsxImportSource x */ import ".data ++ [dquote, 'x', dquote] ++ ";".data

/-- Module info for `c6Text`: the static import (specifier range 32..35) and
the JSX import source pragma (range 20..21) that precedes it in the text. -/
def c6Module : ModuleInfo where
  dependencies := [.static { specifier := "x", specifierRange := ⟨32, 35⟩ }]
  tsReferences := []
  jsdocImports := []
  jsxImportSource := some { text := "x", range := ⟨20, 21⟩ }

/-- A three-byte text starting with a double quote and ending with a single
quote. -/
def c7Text : List Char := [dquote, 'a', squote]

/-- Configuration with the import-map entry `lib/foo.ts` -> a file in the
package's `lib` directory. -/
def c8Config : SpecifierUnfurler :=
  { baseConfig with
    mappedResolver := fun s _ =>
      if s = "lib/foo.ts" then
        .ok (some { scheme := "file", rest := "///pkg/lib/foo.ts" })
      else .ok none
    makeRelative := fun _ _ => some "lib/foo.ts" }

/-- The module text `await import("lib/foo.ts")`. -/
def c8Text : List Char :=
  "await import(".data ++ [dquote] ++ "lib/foo.ts".data ++ [dquote] ++ ")".data

/-- The dynamic dependency for the string argument `"lib/foo.ts"`, argument
range bytes 13..25 (the quoted literal). -/
def c8Dep : DynamicDependencyDescriptor where
  argument := .string "lib/foo.ts"
  argumentRange := ⟨13, 25⟩

/-- Configuration with the chained import-map entries `a` -> `./b.ts` and
`./b.ts` -> `./c.ts` (keys of an import map may be relative paths, resolved
against the map's base, so a produced literal can itself be remapped). -/
def c9Config : SpecifierUnfurler :=
  { baseConfig with
    mappedResolver := fun s _ =>
      if s = "a" then .ok (some { scheme := "file", rest := "///pkg/b.ts" })
      else if s = "./b.ts" then .ok (some { scheme := "file", rest := "///pkg/c.ts" })
      else .ok none
    makeRelative := fun _ res =>
      if res = { scheme := "file", rest := "///pkg/b.ts" } then some "b.ts"
      else if res = { scheme := "file", rest := "///pkg/c.ts" } then some "c.ts"
      else none }

/-- The module text `import "a";`. -/
def c9Text1 : List Char := "import ".data ++ [dquote] ++ "a".data ++ [dquote] ++ ";".data

/-- Module info for `import "a";` (quoted specifier range 7..10). -/
def c9Module1 : ModuleInfo where
  dependencies := [.static { specifier := "a", specifierRange := ⟨7, 10⟩ }]
  tsReferences := []
  jsdocImports := []
  jsxImportSource := none

/-- The module text `import "./b.ts";`, the output of the first run. -/
def c9Text2 : List Char :=
  "import ".data ++ [dquote] ++ "./b.ts".data ++ [dquote] ++ ";".data

/-- Module info the analyzer produces for `import "./b.ts";` (quoted
specifier range 7..15). -/
def c9Module2 : ModuleInfo where
  dependencies := [.static { specifier := "./b.ts", specifierRange := ⟨7, 15⟩ }]
  tsReferences := []
  jsdocImports := []
  jsxImportSource := none

/-- The module text `import "./c.ts";`, the output of the second run. -/
def c9Text3 : List Char :=
  "import ".data ++ [dquote] ++ "./c.ts".data ++ [dquote] ++ ";".data

/-- Configuration mapping `a` to `file:///pkg/b.ts` and parsing `./b.ts`
against the referrer to the same reference: the chain is stable on the
produced literal. -/
def c9StableConfig : SpecifierUnfurler :=
  { baseConfig with
    mappedResolver := fun s _ =>
      if s = "a" then .ok (some { scheme := "file", rest := "///pkg/b.ts" })
      else .ok none
    parseWithBase := fun s _ =>
      if s = "./b.ts" then some { scheme := "file", rest := "///pkg/b.ts" }
      else none
    makeRelative := fun _ res =>
      if res = { scheme := "file", rest := "///pkg/b.ts" } then some "b.ts"
      else none }

/-- Configuration whose mapped resolver fails with an error. -/
def c10Config : SpecifierUnfurler :=
  { baseConfig with mappedResolver := fun _ _ => .error () }

/-! ## Helper lemmas -/

/-- When every `make_relative` call succeeds, `relative_url` never panics. -/
theorem relativeUrl_ok_of_total (u : SpecifierUnfurler)
    (hmr : ∀ a b, (u.makeRelative a b).isSome = true) (resolved referrer : Url) :
    ∃ s, relativeUrl u resolved referrer = .ok s := by
  unfold relativeUrl
  by_cases h : resolved.scheme = "file"
  · rw [if_pos h]
    cases hm : u.makeRelative referrer resolved with
    | none => exact absurd (hmr referrer resolved) (by simp [hm])
    | some rel => exact ⟨"./" ++ rel, rfl⟩
  · rw [if_neg h]
    exact ⟨resolved.toString, rfl⟩

/-- When every `make_relative` call succeeds, `unfurl_specifier` never
panics. -/
theorem unfurlSpecifier_ok_of_total (u : SpecifierUnfurler)
    (hmr : ∀ a b, (u.makeRelative a b).isSome = true) (referrer : Url)
    (specifier : String) :
    ∃ o, unfurlSpecifier u referrer specifier = .ok o := by
  unfold unfurlSpecifier
  cases hr : resolveChain u referrer specifier with
  | none => exact ⟨none, rfl⟩
  | some resolved =>
      dsimp only
      obtain ⟨s, hs⟩ := relativeUrl_ok_of_total u hmr resolved referrer
      rw [hs]
      dsimp only
      by_cases he : s = specifier
      · rw [if_pos he]; exact ⟨none, rfl⟩
      · rw [if_neg he]; exact ⟨some s, rfl⟩

/-- When every `make_relative` call succeeds, the `analyze_specifier` closure
never panics. -/
theorem analyzeSpecifier_ok_of_total (u : SpecifierUnfurler)
    (hmr : ∀ a b, (u.makeRelative a b).isSome = true) (url : Url)
    (text : List Char) (specifier : String) (range : Range) :
    ∃ cs, analyzeSpecifier u url text specifier range = .ok cs := by
  unfold analyzeSpecifier
  obtain ⟨o, ho⟩ := unfurlSpecifier_ok_of_total u hmr url specifier
  rw [ho]
  cases o with
  | none => exact ⟨[], rfl⟩
  | some unf => exact ⟨_, rfl⟩

/-- When every `make_relative` call succeeds, the dynamic classifier never
panics. -/
theorem tryUnfurlDynamicDep_ok_of_total (u : SpecifierUnfurler)
    (hmr : ∀ a b, (u.makeRelative a b).isSome = true) (moduleUrl : Url)
    (text : List Char) (dep : DynamicDependencyDescriptor) :
    ∃ r, tryUnfurlDynamicDep u moduleUrl text dep = .ok r := by
  unfold tryUnfurlDynamicDep
  cases harg : dep.argument with
  | string specifier =>
      dsimp only
      cases hf : listFind (sliceOf text (toRange text dep.argumentRange)) specifier.data with
      | none => exact ⟨_, rfl⟩
      | some i =>
          dsimp only
          obtain ⟨o, ho⟩ := unfurlSpecifier_ok_of_total u hmr moduleUrl specifier
          rw [ho]
          cases o with
          | none => exact ⟨_, rfl⟩
          | some unf => exact ⟨_, rfl⟩
  | template parts =>
      dsimp only
      cases hp : parts.head? with
      | none => exact ⟨_, rfl⟩
      | some part =>
          cases part with
          | expr => exact ⟨_, rfl⟩
          | str specifier =>
              dsimp only
              by_cases h1 : (strStartsWith specifier "./" || strStartsWith specifier "../") = true
              · rw [if_pos h1]; exact ⟨_, rfl⟩
              · rw [if_neg h1]
                by_cases h2 : (!strEndsWith specifier "/") = true
                · rw [if_pos h2]; exact ⟨_, rfl⟩
                · rw [if_neg h2]
                  obtain ⟨o, ho⟩ := unfurlSpecifier_ok_of_total u hmr moduleUrl specifier
                  rw [ho]
                  cases o with
                  | none => exact ⟨_, rfl⟩
                  | some unf =>
                      dsimp only
                      cases hf : listFind (text.drop (toRange text dep.argumentRange).start) specifier.data with
                      | none => exact ⟨_, rfl⟩
                      | some i => exact ⟨_, rfl⟩
  | expr => exact ⟨_, rfl⟩

/-- When every `make_relative` call succeeds, the dependency loop never
panics. -/
theorem unfurlDeps_ok_of_total (u : SpecifierUnfurler)
    (hmr : ∀ a b, (u.makeRelative a b).isSome = true) (url : Url)
    (text : List Char) (deps : List DependencyDescriptor) :
    ∃ r, unfurlDeps u url text deps = .ok r := by
  induction deps with
  | nil => exact ⟨_, rfl⟩
  | cons d rest ih =>
      obtain ⟨⟨cs2, ds2⟩, hrest⟩ := ih
      cases d with
      | static dep =>
          obtain ⟨cs, hcs⟩ := analyzeSpecifier_ok_of_total u hmr url text dep.specifier dep.specifierRange
          refine ⟨(cs ++ cs2, ds2), ?_⟩
          unfold unfurlDeps
          rw [hcs, hrest]
      | dynamic dep =>
          obtain ⟨⟨success, cs⟩, hcs⟩ := tryUnfurlDynamicDep_ok_of_total u hmr url text dep
          refine ⟨(cs ++ cs2,
            (if success then ([] : List Diagnostic)
             else [{ specifier := url, rangeStart := dep.argumentRange.start,
                     rangeStop := dep.argumentRange.stop }]) ++ ds2), ?_⟩
          unfold unfurlDeps
          rw [hcs, hrest]

/-- When every `make_relative` call succeeds, the specifier-with-range loop
never panics. -/
theorem analyzeSpecifierList_ok_of_total (u : SpecifierUnfurler)
    (hmr : ∀ a b, (u.makeRelative a b).isSome = true) (url : Url)
    (text : List Char) (items : List SpecifierWithRange) :
    ∃ cs, analyzeSpecifierList u url text items = .ok cs := by
  induction items with
  | nil => exact ⟨_, rfl⟩
  | cons s rest ih =>
      obtain ⟨cs2, hrest⟩ := ih
      obtain ⟨cs, hcs⟩ := analyzeSpecifier_ok_of_total u hmr url text s.text s.range
      refine ⟨cs ++ cs2, ?_⟩
      unfold analyzeSpecifierList
      rw [hcs, hrest]

/-- When every `make_relative` call succeeds, the JSX import source step
never panics. -/
theorem unfurlJsx_ok_of_total (u : SpecifierUnfurler)
    (hmr : ∀ a b, (u.makeRelative a b).isSome = true) (url : Url)
    (text : List Char) (jsx : Option SpecifierWithRange) :
    ∃ cs, unfurlJsx u url text jsx = .ok cs := by
  cases jsx with
  | none => exact ⟨[], rfl⟩
  | some s => exact analyzeSpecifier_ok_of_total u hmr url text s.text s.range

/-- When every `make_relative` call succeeds, the edit collection never
panics. -/
theorem unfurlChanges_ok_of_total (u : SpecifierUnfurler)
    (hmr : ∀ a b, (u.makeRelative a b).isSome = true) (url : Url)
    (text : List Char) (mi : ModuleInfo) :
    ∃ r, unfurlChanges u url text mi = .ok r := by
  obtain ⟨⟨cs1, ds⟩, h1⟩ := unfurlDeps_ok_of_total u hmr url text mi.dependencies
  obtain ⟨cs2, h2⟩ := analyzeSpecifierList_ok_of_total u hmr url text (mi.tsReferences.map tsRefSpecifier)
  obtain ⟨cs3, h3⟩ := analyzeSpecifierList_ok_of_total u hmr url text mi.jsdocImports
  obtain ⟨cs4, h4⟩ := unfurlJsx_ok_of_total u hmr url text mi.jsxImportSource
  refine ⟨(cs1 ++ cs2 ++ cs3 ++ cs4, ds), ?_⟩
  unfold unfurlChanges
  rw [h1, h2, h3, h4]

/-! ## Claim C1 -/

/-- Claim C1, counterexample: `unfurl` can panic. With the import map sending
`a` to a file URL on another host, `Url::make_relative` fails and the
`.unwrap()` in `relative_url` aborts the whole pass on the one-line module
`import "a";`. -/
theorem unfurl_panics_on_unrelatable_file_url :
    unfurl c1Config pkgReferrer c1Text c1Module = .panic := by
  rfl

/-- Claim C1, amended: for every referrer, module and reporter, `unfurl`
terminates and returns a rewritten text provided every `make_relative` call
of the configuration succeeds; resolution and classification failures then
surface only as diagnostics or absent edits. -/
theorem unfurl_ok_of_makeRelative_total (u : SpecifierUnfurler) (url : Url)
    (text : List Char) (mi : ModuleInfo)
    (hmr : ∀ a b, (u.makeRelative a b).isSome = true) :
    ∃ out, unfurl u url text mi = .ok out := by
  obtain ⟨⟨cs, ds⟩, h⟩ := unfurlChanges_ok_of_total u hmr url text mi
  refine ⟨(applyTextChanges text cs, ds), ?_⟩
  unfold unfurl
  rw [h]

/-- Claim C1, witness: the amended theorem applied to a concrete
configuration whose `make_relative` always succeeds. -/
theorem unfurl_ok_of_makeRelative_total_witness :
    (∀ a b, (c1TotalConfig.makeRelative a b).isSome = true) ∧
      ∃ out, unfurl c1TotalConfig pkgReferrer c1Text c1Module = .ok out :=
  ⟨fun _ _ => rfl,
    unfurl_ok_of_makeRelative_total c1TotalConfig pkgReferrer c1Text c1Module
      (fun _ _ => rfl)⟩

/-! ## Claim C2 -/

/-- Claim C2, counterexample: for referrer `file:///a/mod.ts` and resolved
reference `file:///b.ts` the computed relative path is `../b.ts`, which
already starts with `../`, yet `relative_url` still prepends `./` and
produces `./../b.ts`; the claim's conditional version produces `../b.ts`. -/
theorem relativeUrl_prepends_unconditionally :
    relativeUrl c2Config c2Resolved c2Referrer = .ok "./../b.ts" ∧
    relativeUrlClaim c2Config c2Resolved c2Referrer = .ok "../b.ts" ∧
    relativeUrl c2Config c2Resolved c2Referrer ≠
      relativeUrlClaim c2Config c2Resolved c2Referrer :=
  ⟨rfl, rfl, by decide⟩

/-- Claim C2, amended: for a file-scheme resolved reference the relativizer
returns `./` prepended to the computed relative path unconditionally (even
when that path already starts with `../`), and for any other scheme it
returns the canonical string form unmodified. -/
theorem relativeUrl_characterization (u : SpecifierUnfurler)
    (resolved referrer : Url) :
    (∀ rel, resolved.scheme = "file" → u.makeRelative referrer resolved = some rel →
        relativeUrl u resolved referrer = .ok ("./" ++ rel)) ∧
    (resolved.scheme ≠ "file" →
        relativeUrl u resolved referrer = .ok resolved.toString) := by
  constructor
  · intro rel hs hm
    unfold relativeUrl
    rw [if_pos hs, hm]
  · intro hs
    unfold relativeUrl
    rw [if_neg hs]

/-- Claim C2, witness: the amended characterization applied to concrete
inputs of both schemes. -/
theorem relativeUrl_characterization_witness :
    c2Resolved.scheme = "file" ∧
    c2WConfig.makeRelative c2Referrer c2Resolved = some "x.ts" ∧
    relativeUrl c2WConfig c2Resolved c2Referrer = .ok ("./" ++ "x.ts") :=
  ⟨rfl, rfl,
    (relativeUrl_characterization c2WConfig c2Resolved c2Referrer).1 "x.ts" rfl rfl⟩

/-! ## Claim C7 -/

/-- Claim C7, counterexample: on a range whose text starts with a double
quote and ends with a single quote, `to_range` retracts the end even though
the closing byte does not match the opening one; the claim's version leaves
the end alone. -/
theorem toRange_mismatched_quotes :
    toRange c7Text ⟨0, 3⟩ = ⟨1, 2⟩ ∧
    toRangeClaim c7Text ⟨0, 3⟩ = ⟨1, 3⟩ ∧
    toRange c7Text ⟨0, 3⟩ ≠ toRangeClaim c7Text ⟨0, 3⟩ :=
  ⟨rfl, rfl, by decide⟩

/-- Claim C7, amended: the quote-trim adjustment advances the start by one
exactly when the first byte of the range's text is a double or single quote,
and retracts the end by one exactly when the last byte is a double or single
quote — whether or not it matches the first; the range is unchanged when
neither holds. -/
theorem toRange_characterization (text : List Char) (range : Range) :
    toRange text range =
      { start :=
          if isQuoteChar (sliceOf text range).head? then range.start + 1
          else range.start,
        stop :=
          if isQuoteChar (sliceOf text range).getLast? then range.stop - 1
          else range.stop } := by
  unfold toRange
  cases h1 : (sliceOf text range).head? <;>
    cases h2 : (sliceOf text range).getLast? <;>
      simp [h1, h2, isQuoteChar]

/-! ## Claim C3 -/

/-- Claim C3: for a dynamic import whose argument is a template whose first
part is a string literal, the classifier reports analyzable with no edit for
explicit-relative literals, unanalyzable for literals not ending in `/`, and
otherwise runs resolution+relativization: no rewrite means analyzable with no
edit, a rewrite is located by substring search in the text from the
argument range's start onward, a missed search means unanalyzable, a hit
emits one edit over exactly the located span. -/
theorem tryUnfurlDynamicDep_template_first_string (u : SpecifierUnfurler)
    (moduleUrl : Url) (text : List Char) (dep : DynamicDependencyDescriptor)
    (specifier : String) (restParts : List DynamicTemplatePart)
    (h : dep.argument = .template (.str specifier :: restParts)) :
    tryUnfurlDynamicDep u moduleUrl text dep =
      (if strStartsWith specifier "./" || strStartsWith specifier "../" then
        .ok (true, [])
      else if !strEndsWith specifier "/" then
        .ok (false, [])
      else
        match unfurlSpecifier u moduleUrl specifier with
        | .panic => .panic
        | .ok none => .ok (true, [])
        | .ok (some unfurled) =>
            match listFind (text.drop (toRange text dep.argumentRange).start)
                specifier.data with
            | none => .ok (false, [])
            | some i =>
                .ok (true,
                  [{ start := (toRange text dep.argumentRange).start + i,
                     stop := (toRange text dep.argumentRange).start + i
                       + specifier.length,
                     newText := unfurled }])) := by
  unfold tryUnfurlDynamicDep
  rw [h]
  rfl

/-- Claim C3, witness: the theorem instantiated at the template
`lib/$\x7be\x7d` with the import-map entry `lib/` -> `./lib/`. -/
theorem tryUnfurlDynamicDep_template_first_string_witness :
    c3Dep.argument = DynamicArgument.template (.str "lib/" :: [.expr]) ∧
    tryUnfurlDynamicDep c3Config pkgReferrer c3Text c3Dep =
      (if strStartsWith "lib/" "./" || strStartsWith "lib/" "../" then
        .ok (true, [])
      else if !strEndsWith "lib/" "/" then
        .ok (false, [])
      else
        match unfurlSpecifier c3Config pkgReferrer "lib/" with
        | .panic => .panic
        | .ok none => .ok (true, [])
        | .ok (some unfurled) =>
            match listFind (c3Text.drop (toRange c3Text c3Dep.argumentRange).start)
                "lib/".data with
            | none => .ok (false, [])
            | some i =>
                .ok (true,
                  [{ start := (toRange c3Text c3Dep.argumentRange).start + i,
                     stop := (toRange c3Text c3Dep.argumentRange).start + i
                       + "lib/".length,
                     newText := unfurled }])) :=
  ⟨rfl,
    tryUnfurlDynamicDep_template_first_string c3Config pkgReferrer c3Text c3Dep
      "lib/" [.expr] rfl⟩

/-! ## Claim C4 -/

/-- Claim C4: single-specifier resolution follows the specification's
four-step chain with first success winning — mapped resolver, bare builtin
namespacing, direct parse against the referrer (failure ending resolution),
then the secondary resolver in execution mode — and `unfurl_specifier`
relativizes exactly the reference that chain produces. -/
theorem unfurlSpecifier_resolution_order (u : SpecifierUnfurler)
    (referrer : Url) (specifier : String) :
    unfurlSpecifier u referrer specifier =
      match specResolutionChain u specifier referrer with
      | none => .ok none
      | some resolved =>
          match relativeUrl u resolved referrer with
          | .panic => .panic
          | .ok rel => if rel = specifier then .ok none else .ok (some rel) := by
  have hchain : resolveChain u referrer specifier
      = specResolutionChain u specifier referrer := by
    unfold resolveChain specResolutionChain
    cases hm : u.mappedResolver specifier referrer with
    | ok r =>
        cases r with
        | none => rfl
        | some v => rfl
    | error e => rfl
  unfold unfurlSpecifier
  rw [hchain]

/-! ## Claim C5 -/

/-- The dependency loop delivers exactly one diagnostic per unanalyzable
dynamic dependency, none for any other descriptor, in descriptor order. -/
theorem unfurlDeps_diagnostics (u : SpecifierUnfurler) (url : Url)
    (text : List Char) :
    ∀ (deps : List DependencyDescriptor) (cs : List TextChange)
      (ds : List Diagnostic),
      unfurlDeps u url text deps = .ok (cs, ds) →
      ds = deps.filterMap (dynDiag u url text) := by
  intro deps
  induction deps with
  | nil =>
      intro cs ds h
      unfold unfurlDeps at h
      simp only [PResult.ok.injEq, Prod.mk.injEq] at h
      obtain ⟨-, h2⟩ := h
      subst h2
      rfl
  | cons d restDeps ih =>
      intro cs ds h
      cases d with
      | static dep =>
          unfold unfurlDeps at h
          cases ha : analyzeSpecifier u url text dep.specifier dep.specifierRange with
          | panic => rw [ha] at h; exact absurd h (by simp)
          | ok cs1 =>
              rw [ha] at h
              dsimp only at h
              cases hr : unfurlDeps u url text restDeps with
              | panic => rw [hr] at h; exact absurd h (by simp)
              | ok q =>
                  obtain ⟨cs2, ds2⟩ := q
                  rw [hr] at h
                  dsimp only at h
                  simp only [PResult.ok.injEq, Prod.mk.injEq] at h
                  obtain ⟨-, h2⟩ := h
                  subst h2
                  have hnone : dynDiag u url text (.static dep) = none := rfl
                  simp only [List.filterMap_cons, hnone]
                  exact ih cs2 ds2 hr
      | dynamic dep =>
          unfold unfurlDeps at h
          cases ht : tryUnfurlDynamicDep u url text dep with
          | panic => rw [ht] at h; exact absurd h (by simp)
          | ok q =>
              obtain ⟨success, cs1⟩ := q
              rw [ht] at h
              dsimp only at h
              cases hr : unfurlDeps u url text restDeps with
              | panic => rw [hr] at h; exact absurd h (by simp)
              | ok q2 =>
                  obtain ⟨cs2, ds2⟩ := q2
                  rw [hr] at h
                  dsimp only at h
                  simp only [PResult.ok.injEq, Prod.mk.injEq] at h
                  obtain ⟨-, h2⟩ := h
                  subst h2
                  cases success with
                  | true =>
                      have hnone : dynDiag u url text (.dynamic dep) = none := by
                        unfold dynDiag
                        dsimp only
                        rw [ht]
                      simp only [List.filterMap_cons, hnone]
                      simpa using ih cs2 ds2 hr
                  | false =>
                      have hsome : dynDiag u url text (.dynamic dep) =
                          some { specifier := url,
                                 rangeStart := dep.argumentRange.start,
                                 rangeStop := dep.argumentRange.stop } := by
                        unfold dynDiag
                        dsimp only
                        rw [ht]
                      simp only [List.filterMap_cons, hsome]
                      simpa using ih cs2 ds2 hr

/-- Claim C5: when `unfurl` completes, the diagnostics delivered to the sink
are exactly one per dynamic-import occurrence classified unanalyzable, none
for any other occurrence, and in the source order of the dependency list. -/
theorem unfurl_diagnostics_exact (u : SpecifierUnfurler) (url : Url)
    (text : List Char) (mi : ModuleInfo) (rewritten : List Char)
    (ds : List Diagnostic)
    (h : unfurl u url text mi = .ok (rewritten, ds)) :
    ds = mi.dependencies.filterMap (dynDiag u url text) := by
  unfold unfurl at h
  cases hc : unfurlChanges u url text mi with
  | panic => rw [hc] at h; exact absurd h (by simp)
  | ok p =>
      obtain ⟨cs, ds0⟩ := p
      rw [hc] at h
      dsimp only at h
      simp only [PResult.ok.injEq, Prod.mk.injEq] at h
      obtain ⟨-, hds⟩ := h
      unfold unfurlChanges at hc
      cases hd : unfurlDeps u url text mi.dependencies with
      | panic => rw [hd] at hc; exact absurd hc (by simp)
      | ok q =>
          obtain ⟨cs1, ds1⟩ := q
          rw [hd] at hc
          dsimp only at hc
          cases hts : analyzeSpecifierList u url text (mi.tsReferences.map tsRefSpecifier) with
          | panic => rw [hts] at hc; exact absurd hc (by simp)
          | ok cs2 =>
              rw [hts] at hc
              dsimp only at hc
              cases hjd : analyzeSpecifierList u url text mi.jsdocImports with
              | panic => rw [hjd] at hc; exact absurd hc (by simp)
              | ok cs3 =>
                  rw [hjd] at hc
                  dsimp only at hc
                  cases hjx : unfurlJsx u url text mi.jsxImportSource with
                  | panic => rw [hjx] at hc; exact absurd hc (by simp)
                  | ok cs4 =>
                      rw [hjx] at hc
                      dsimp only at hc
                      simp only [PResult.ok.injEq, Prod.mk.injEq] at hc
                      obtain ⟨-, hds1⟩ := hc
                      rw [← hds, ← hds1]
                      exact unfurlDeps_diagnostics u url text mi.dependencies cs1 ds1 hd

/-- Claim C5, witness: a module with one plain-expression dynamic import
yields exactly its one diagnostic. -/
theorem unfurl_diagnostics_exact_witness :
    unfurl baseConfig pkgReferrer c3Text c5Module =
      .ok (c3Text, [{ specifier := pkgReferrer, rangeStart := 13, rangeStop := 23 }]) ∧
    ([{ specifier := pkgReferrer, rangeStart := 13, rangeStop := 23 }] : List Diagnostic) =
      c5Module.dependencies.filterMap (dynDiag baseConfig pkgReferrer c3Text) :=
  ⟨rfl,
    unfurl_diagnostics_exact baseConfig pkgReferrer c3Text c5Module c3Text
      [{ specifier := pkgReferrer, rangeStart := 13, rangeStop := 23 }] rfl⟩

/-! ## Claim C6 -/

/-- Claim C6, counterexample: with a JSX import source pragma at byte 20 and
a static import at byte 33, both rewritten, the collected edit list handed to
the text patcher is `[33.., 20..]` — not sorted by byte-start offset, because
pragma edits are appended after all dependency edits regardless of
position. -/
theorem unfurlChanges_not_sorted :
    unfurlChanges c6Config pkgReferrer c6Text c6Module =
      .ok ([{ start := 33, stop := 34, newText := "npm:x@1" },
            { start := 20, stop := 21, newText := "npm:x@1" }], []) ∧
    sortedByStart [{ start := 33, stop := 34, newText := "npm:x@1" },
                   { start := 20, stop := 21, newText := "npm:x@1" }] = false :=
  ⟨rfl, rfl⟩

/-- Claim C6, amended: the collected edit list is, in this fixed order, the
dependency edits (in descriptor order), then the type-reference edits, then
the documentation-import edits, then the JSX-import-source edit; the
concatenation is not in general sorted by byte start across those groups. -/
theorem unfurlChanges_group_order (u : SpecifierUnfurler) (url : Url)
    (text : List Char) (mi : ModuleInfo) (cs1 : List TextChange)
    (ds : List Diagnostic) (cs2 cs3 cs4 : List TextChange)
    (h1 : unfurlDeps u url text mi.dependencies = .ok (cs1, ds))
    (h2 : analyzeSpecifierList u url text (mi.tsReferences.map tsRefSpecifier) = .ok cs2)
    (h3 : analyzeSpecifierList u url text mi.jsdocImports = .ok cs3)
    (h4 : unfurlJsx u url text mi.jsxImportSource = .ok cs4) :
    unfurlChanges u url text mi = .ok (cs1 ++ cs2 ++ cs3 ++ cs4, ds) := by
  unfold unfurlChanges
  rw [h1, h2, h3, h4]

/-- Claim C6, witness: the group decomposition at the counterexample
module. -/
theorem unfurlChanges_group_order_witness :
    unfurlDeps c6Config pkgReferrer c6Text c6Module.dependencies =
      .ok ([{ start := 33, stop := 34, newText := "npm:x@1" }], []) ∧
    analyzeSpecifierList c6Config pkgReferrer c6Text
      (c6Module.tsReferences.map tsRefSpecifier) = .ok [] ∧
    analyzeSpecifierList c6Config pkgReferrer c6Text c6Module.jsdocImports = .ok [] ∧
    unfurlJsx c6Config pkgReferrer c6Text c6Module.jsxImportSource =
      .ok [{ start := 20, stop := 21, newText := "npm:x@1" }] ∧
    unfurlChanges c6Config pkgReferrer c6Text c6Module =
      .ok ([{ start := 33, stop := 34, newText := "npm:x@1" }] ++ [] ++ []
             ++ [{ start := 20, stop := 21, newText := "npm:x@1" }], []) :=
  ⟨rfl, rfl, rfl, rfl,
    unfurlChanges_group_order c6Config pkgReferrer c6Text c6Module
      [{ start := 33, stop := 34, newText := "npm:x@1" }] [] [] []
      [{ start := 20, stop := 21, newText := "npm:x@1" }] rfl rfl rfl rfl⟩

/-! ## Claim C8 -/

/-- Claim C8: a dynamic import whose argument is a single string literal is
always classified analyzable; a missed substring search produces no edit, and
a hit produces an edit over exactly the located span precisely when
resolution+relativization yields a different literal. -/
theorem tryUnfurlDynamicDep_string_analyzable (u : SpecifierUnfurler)
    (moduleUrl : Url) (text : List Char) (dep : DynamicDependencyDescriptor)
    (specifier : String) (b : Bool) (cs : List TextChange)
    (harg : dep.argument = .string specifier)
    (hrun : tryUnfurlDynamicDep u moduleUrl text dep = .ok (b, cs)) :
    b = true ∧
    (listFind (sliceOf text (toRange text dep.argumentRange)) specifier.data = none →
        cs = []) ∧
    (∀ i, listFind (sliceOf text (toRange text dep.argumentRange)) specifier.data = some i →
      (unfurlSpecifier u moduleUrl specifier = .ok none → cs = []) ∧
      (∀ unf, unfurlSpecifier u moduleUrl specifier = .ok (some unf) →
        cs = [{ start := (toRange text dep.argumentRange).start + i,
                stop := (toRange text dep.argumentRange).start + i + specifier.length,
                newText := unf }])) := by
  unfold tryUnfurlDynamicDep at hrun
  rw [harg] at hrun
  dsimp only at hrun
  cases hf : listFind (sliceOf text (toRange text dep.argumentRange)) specifier.data with
  | none =>
      rw [hf] at hrun
      dsimp only at hrun
      simp only [PResult.ok.injEq, Prod.mk.injEq] at hrun
      obtain ⟨hb, hcs⟩ := hrun
      subst hb
      subst hcs
      refine ⟨rfl, fun _ => rfl, ?_⟩
      intro i hi
      exact absurd hi (by simp)
  | some i0 =>
      rw [hf] at hrun
      dsimp only at hrun
      cases hu : unfurlSpecifier u moduleUrl specifier with
      | panic => rw [hu] at hrun; exact absurd hrun (by simp)
      | ok o =>
          rw [hu] at hrun
          cases o with
          | none =>
              dsimp only at hrun
              simp only [PResult.ok.injEq, Prod.mk.injEq] at hrun
              obtain ⟨hb, hcs⟩ := hrun
              subst hb
              subst hcs
              refine ⟨rfl, fun _ => rfl, ?_⟩
              intro i hi
              refine ⟨fun _ => rfl, ?_⟩
              intro unf hunf
              exact absurd hunf (by simp)
          | some unf0 =>
              dsimp only at hrun
              simp only [PResult.ok.injEq, Prod.mk.injEq] at hrun
              obtain ⟨hb, hcs⟩ := hrun
              subst hb
              subst hcs
              refine ⟨rfl, fun hnone => ?_, ?_⟩
              · exact absurd hnone (by simp)
              · intro i hi
                simp only [Option.some.injEq] at hi
                subst hi
                refine ⟨fun hnone => ?_, ?_⟩
                · exact absurd hnone (by simp)
                · intro unf hunf
                  simp only [PResult.ok.injEq, Option.some.injEq] at hunf
                  subst hunf
                  rfl

/-- Claim C8, witness: the theorem instantiated at
`await import("lib/foo.ts")` with the import-map entry for `lib/foo.ts`. -/
theorem tryUnfurlDynamicDep_string_analyzable_witness :
    c8Dep.argument = DynamicArgument.string "lib/foo.ts" ∧
    tryUnfurlDynamicDep c8Config pkgReferrer c8Text c8Dep =
      .ok (true, [{ start := 14, stop := 24, newText := "./lib/foo.ts" }]) ∧
    true = true :=
  ⟨rfl, rfl,
    (tryUnfurlDynamicDep_string_analyzable c8Config pkgReferrer c8Text c8Dep
      "lib/foo.ts" true [{ start := 14, stop := 24, newText := "./lib/foo.ts" }]
      rfl rfl).1⟩

/-! ## Claim C9 -/

/-- Claim C9, counterexample: with the chained import-map entries
`a` -> `./b.ts` and `./b.ts` -> `./c.ts`, the first run rewrites
`import "a";` to `import "./b.ts";` and a second run on that output rewrites
it again to `import "./c.ts";` — `unfurl` is not idempotent for every
resolver configuration. -/
theorem unfurl_not_idempotent :
    unfurl c9Config pkgReferrer c9Text1 c9Module1 = .ok (c9Text2, []) ∧
    unfurl c9Config pkgReferrer c9Text2 c9Module2 = .ok (c9Text3, []) ∧
    c9Text3 ≠ c9Text2 :=
  ⟨rfl, rfl, by decide⟩

/-- Claim C9, amended: a produced literal is never rewritten again provided
the resolution chain is stable on it — if `unfurl_specifier` rewrites `s` to
`s₂` and the chain resolves `s₂` to the same reference it resolved `s` to,
then `unfurl_specifier` on `s₂` yields no edit. -/
theorem unfurlSpecifier_stable_idempotent (u : SpecifierUnfurler)
    (referrer : Url) (s s2 : String)
    (h1 : unfurlSpecifier u referrer s = .ok (some s2))
    (h2 : resolveChain u referrer s2 = resolveChain u referrer s) :
    unfurlSpecifier u referrer s2 = .ok none := by
  unfold unfurlSpecifier at h1
  cases hr : resolveChain u referrer s with
  | none => rw [hr] at h1; exact absurd h1 (by simp)
  | some R =>
      rw [hr] at h1
      dsimp only at h1
      cases hrel : relativeUrl u R referrer with
      | panic => rw [hrel] at h1; exact absurd h1 (by simp)
      | ok rel =>
          rw [hrel] at h1
          dsimp only at h1
          by_cases he : rel = s
          · rw [if_pos he] at h1
            exact absurd h1 (by simp)
          · rw [if_neg he] at h1
            simp only [PResult.ok.injEq, Option.some.injEq] at h1
            unfold unfurlSpecifier
            rw [h2, hr]
            dsimp only
            rw [hrel]
            dsimp only
            rw [if_pos h1]

/-- Claim C9, witness: the amended theorem at a configuration whose chain is
stable on the produced literal `./b.ts`. -/
theorem unfurlSpecifier_stable_idempotent_witness :
    unfurlSpecifier c9StableConfig pkgReferrer "a" = .ok (some "./b.ts") ∧
    resolveChain c9StableConfig pkgReferrer "./b.ts" =
      resolveChain c9StableConfig pkgReferrer "a" ∧
    unfurlSpecifier c9StableConfig pkgReferrer "./b.ts" = .ok none :=
  ⟨rfl, rfl,
    unfurlSpecifier_stable_idempotent c9StableConfig pkgReferrer "a" "./b.ts"
      rfl rfl⟩

/-! ## Claim C10 -/

/-- Claim C10: a mapped-resolver error is swallowed — `unfurl_specifier`
behaves exactly as if the mapped resolver had returned no result, falling
through to the builtin-namespacing and direct-parse stages. -/
theorem unfurlSpecifier_mapped_error_as_none (u : SpecifierUnfurler)
    (referrer : Url) (specifier : String)
    (h : u.mappedResolver specifier referrer = .error ()) :
    unfurlSpecifier u referrer specifier =
      unfurlSpecifier { u with mappedResolver := fun _ _ => Except.ok none }
        referrer specifier := by
  unfold unfurlSpecifier resolveChain
  rw [h]
  rfl

/-- Claim C10, witness: the theorem at a configuration whose mapped resolver
always errors. -/
theorem unfurlSpecifier_mapped_error_as_none_witness :
    c10Config.mappedResolver "a" pkgReferrer = .error () ∧
    unfurlSpecifier c10Config pkgReferrer "a" =
      unfurlSpecifier { c10Config with mappedResolver := fun _ _ => Except.ok none }
        pkgReferrer "a" :=
  ⟨rfl, unfurlSpecifier_mapped_error_as_none c10Config pkgReferrer "a" rfl⟩

end Unfurl
